import Mathlib

/-!
Shallow embedding of the candidate-job matching engine of the
`aibasedresumescreening` repository (files `data_processor.py` and
`ai_processor.py`), together with proofs settling the frozen claims
about its specification.

Conventions: Python floats are modelled as rationals (all scores are
ratios of small integers), Python dicts of known shape as structures,
and values whose shape can make the Python code raise as explicit
variant constructors (`SVal.bad`, `ExpField.bad`); the `try/except`
wrapper of the scorer is modelled with `Except`.
-/

/-- Python `s.lower()` (ASCII-relevant part). All string helpers here are
written by structural recursion over the character list, so that concrete
inputs evaluate definitionally. -/
def pyLower (s : String) : String := String.mk (s.toList.map Char.toLower)

/-- Python `s.strip()` with no argument: remove surrounding whitespace. -/
def pyTrim (s : String) : String :=
  String.mk (((s.toList.dropWhile Char.isWhitespace).reverse.dropWhile
    Char.isWhitespace).reverse)

/-- Membership of a char in a strip-character set. -/
def charIn (cs : List Char) (c : Char) : Bool := cs.contains c

/-- Python `s.strip(chars)`: remove any of the given characters from both ends. -/
def pyStripChars (cs : List Char) (s : String) : String :=
  String.mk (((s.toList.dropWhile (charIn cs)).reverse.dropWhile (charIn cs)).reverse)

/-- Occurrence of `sub` at some position of `l`. -/
def containsSubL (sub : List Char) : List Char → Bool
  | [] => sub.isEmpty
  | c :: rest => sub.isPrefixOf (c :: rest) || containsSubL sub rest

/-- Python substring test `sub in s`. -/
def containsSub (s sub : String) : Bool := containsSubL sub.toList s.toList

/-- Splitting on each occurrence of one separator char (`cur` is the reversed
current token). -/
def splitOnCharAux (c : Char) : List Char → List Char → List String
  | [], cur => [String.mk cur.reverse]
  | x :: rest, cur =>
    if x = c then String.mk cur.reverse :: splitOnCharAux c rest []
    else splitOnCharAux c rest (x :: cur)

/-- Python `s.split(sep)` for a one-character separator (every separator used
by the source - `'-'`, `','`, `'\n'` - is one character); `''.split(sep)`
is `['']`. -/
def pySplitChar (c : Char) (s : String) : List String :=
  splitOnCharAux c s.toList []

/-- Worker for whitespace splitting (`cur` is the reversed current token). -/
def splitWsAux : List Char → List Char → List String
  | [], cur => if cur.isEmpty then [] else [String.mk cur.reverse]
  | x :: rest, cur =>
    if x.isWhitespace then
      if cur.isEmpty then splitWsAux rest []
      else String.mk cur.reverse :: splitWsAux rest []
    else splitWsAux rest (x :: cur)

/-- Python `s.split()` with no argument: split on whitespace runs, dropping empties. -/
def pySplitWs (s : String) : List String :=
  splitWsAux s.toList []

/-- Python `s.isdigit()` for ASCII digits. -/
def isDigitStr (s : String) : Bool := !s.toList.isEmpty && s.toList.all Char.isDigit

/-- Python `int(s)` for an all-digit string. -/
def digitsToNat (s : String) : Nat :=
  s.toList.foldl (fun acc c => acc * 10 + (c.toNat - 48)) 0

/-- The `skills` value of a requirements dict: the code accepts a comma-separated
string or a list of strings; any other (non-iterable-of-strings) value makes the
set comprehension in `calculate_match_score_sync` raise (`SVal.bad`), while the
pre-filter's `isinstance` checks just treat it as no skills. -/
inductive SVal where
  | str (s : String)
  | list (l : List String)
  | bad
deriving DecidableEq, Repr

/-- The `experience` value of a requirements dict. `falsy` covers a missing key,
an empty dict and an empty list (all falsy in Python, hence skipping the
adjustment branch); `dict` is a non-empty dict carrying `minimum_years` (0 when
the key is absent) and `description`; `bad` is any other truthy value, on which
`exp_requirements.get` raises inside the adjustment branch. -/
inductive ExpField where
  | falsy
  | dict (minimum_years : Nat) (description : List String)
  | bad
deriving DecidableEq, Repr

/-- The `requirements` dict built by `_load_jobs_from_csv` (and accepted by the
scorer): `{'skills': ..., 'experience': ..., 'education': ...}`. -/
structure Requirements where
  skills : SVal
  experience : ExpField
  education : List String
deriving DecidableEq, Repr

/-- The `job_requirements` argument of `calculate_match_score_sync`: either a
dict of the shape above or any non-dict value (`notDict`), which the code
coerces to an empty-requirements dict. -/
inductive JobReqVal where
  | notDict
  | dict (r : Requirements)
deriving DecidableEq, Repr

/-- One candidate experience entry; only `exp.get('period', '')` is read. -/
structure ExpEntry where
  period : String
deriving DecidableEq, Repr

/-- The candidate record produced by the external resume extractor. -/
structure Candidate where
  skills : List String
  experience : List ExpEntry
  education : List String
deriving DecidableEq, Repr

/-- A job dict as built by `_load_jobs_from_csv`; `preliminary_score` is `none`
while the dict has no `'preliminary_score'` key and `some s` after the
pre-filter has written `job['preliminary_score'] = s`. -/
structure Job where
  title : String
  job_title : String
  role : String
  description : String
  qualifications : String
  company : String
  salary_range : String
  work_type : String
  requirements : Requirements
  preliminary_score : Option ℚ := none
deriving DecidableEq, Repr

/-- The `ai_analysis` dict assembled by `calculate_match_score_sync`. Python
iterates its skill sets in unspecified order; the embedding fixes the canonical
(lexicographic) order for the derived lists. -/
structure Analysis where
  match_score : ℚ
  summary : String
  strengths : List String
  gaps : List String
  recommendations : List String
  matching_skills : List String
  missing_skills : List String
deriving DecidableEq, Repr

/-- The dict returned by `calculate_match_score_sync`. -/
structure MatchResult where
  total_score : ℚ
  skill_match : ℚ
  experience_match : ℚ
  education_match : ℚ
  ai_analysis : Analysis
deriving DecidableEq, Repr

/-- Line 228-232 of `ai_processor.py`: the replacement dict used when
`job_requirements` is not a dict (`'experience': []` is falsy). -/
def emptyCoercedReq : Requirements :=
  { skills := SVal.list [], experience := ExpField.falsy, education := [] }

/-- The `isinstance(job_requirements, dict)` coercion at the top of the scorer. -/
def coerceReq : JobReqVal → Requirements
  | JobReqVal.notDict => emptyCoercedReq
  | JobReqVal.dict r => r

/-- Lines 235-237 then 243 of `ai_processor.py`: `required_skills_lower` as a
set, for the non-raising shapes of the `skills` value (`bad` is mapped to the
empty set here; the scorer never reaches this point on `bad`). -/
def requiredSetOf : SVal → Finset String
  | SVal.str s => (((pySplitChar ',' s).map pyTrim).map pyLower).toFinset
  | SVal.list l => (l.map pyLower).toFinset
  | SVal.bad => ∅

/-- Line 244: `candidate_skills_lower` as a set. -/
def candSetOf (cand : Candidate) : Finset String :=
  (cand.skills.map pyLower).toFinset

/-- Line 245: `matching_skills`. -/
def matchingSetOf (cand : Candidate) (sv : SVal) : Finset String :=
  requiredSetOf sv ∩ candSetOf cand

/-- Line 246: `missing_skills`. -/
def missingSetOf (cand : Candidate) (sv : SVal) : Finset String :=
  requiredSetOf sv \ candSetOf cand

/-- Lines 249-250: the pre-adjustment skill score,
`(len(matching)/len(required) if required_skills_lower else 0.5) * 100`. -/
def baseScoreOf (cand : Candidate) (sv : SVal) : ℚ :=
  (if requiredSetOf sv = ∅ then (1 : ℚ) / 2
   else ((matchingSetOf cand sv).card : ℚ) / ((requiredSetOf sv).card : ℚ)) * 100

/-- Lines 273-274: `candidate_years`, the sum over experience entries of the
number of hyphen-separated tokens of the `period` string. -/
def candidateYears (cand : Candidate) : Nat :=
  (cand.experience.map (fun e => (pySplitChar '-' e.period).length)).sum

/-- Python truthiness of the `experience` requirements value. -/
def expTruthy : ExpField → Bool
  | ExpField.falsy => false
  | _ => true

/-- Line 272: `exp_requirements.get('minimum_years', 0)` (for the dict shape). -/
def minYearsOf : ExpField → Nat
  | ExpField.dict m _ => m
  | _ => 0

/-- Lines 269-281: the experience-adjusted match score. The branch runs exactly
when the experience value is truthy and the candidate experience list is
non-empty; it adds 10 capped at 100 when `candidate_years >= min_years`, else
subtracts 10 floored at 0. -/
def finalScoreOf (cand : Candidate) (jr : Requirements) : ℚ :=
  if expTruthy jr.experience = true ∧ cand.experience ≠ [] then
    if minYearsOf jr.experience ≤ candidateYears cand then
      min 100 (baseScoreOf cand jr.skills + 10)
    else
      max 0 (baseScoreOf cand jr.skills - 10)
  else baseScoreOf cand jr.skills

/-- Canonical listing of a string set (Python's set iteration order is
unspecified; the embedding uses lexicographic order). -/
def sortedSkills (s : Finset String) : List String :=
  s.sort (· ≤ ·)

/-- Lines 252-281: the `analysis` dict, including the notes the adjustment
branch appends to `strengths` or `gaps`. -/
def mkAnalysis (cand : Candidate) (jr : Requirements) : Analysis :=
  let M := matchingSetOf cand jr.skills
  let X := missingSetOf cand jr.skills
  let applied := expTruthy jr.experience = true ∧ cand.experience ≠ []
  { match_score := finalScoreOf cand jr
    summary := "Candidate matches " ++ toString M.card ++ " out of " ++
      toString (requiredSetOf jr.skills).card ++ " required skills"
    strengths :=
      (sortedSkills M).map (fun s => "Proficient in " ++ s) ++
      (if applied ∧ minYearsOf jr.experience ≤ candidateYears cand then
        ["Has " ++ toString (candidateYears cand) ++ " years of relevant experience"]
      else [])
    gaps :=
      (sortedSkills X).map (fun s => "Missing skill: " ++ s) ++
      (if applied ∧ ¬ minYearsOf jr.experience ≤ candidateYears cand then
        ["Requires " ++ toString (minYearsOf jr.experience) ++ " years of experience"]
      else [])
    recommendations :=
      if X = ∅ then ["Strong match with required skills"]
      else ((sortedSkills X).take 3).map (fun s => "Consider learning " ++ s)
    matching_skills := sortedSkills M
    missing_skills := sortedSkills X }

/-- Lines 293-307: the fixed neutral fallback returned by the `except` handler. -/
def fallbackResult : MatchResult :=
  { total_score := 50
    skill_match := 50
    experience_match := 50
    education_match := 50
    ai_analysis :=
      { match_score := 50
        summary := "Basic skill matching analysis"
        strengths := ["Has some matching skills"]
        gaps := ["Could not perform detailed analysis"]
        recommendations := ["Review complete job requirements"]
        matching_skills := []
        missing_skills := [] } }

/-- Lines 220-289 of `ai_processor.py`: the `try` body of the scorer. It raises
(`error`) when the skills value cannot be iterated as strings, or when the
adjustment branch is entered with a truthy non-dict experience value. -/
def scoreBody (cand : Candidate) (jrv : JobReqVal) : Except Unit MatchResult :=
  if (coerceReq jrv).skills = SVal.bad then Except.error ()
  else if (coerceReq jrv).experience = ExpField.bad ∧ cand.experience ≠ [] then
    Except.error ()
  else Except.ok
    { total_score := finalScoreOf cand (coerceReq jrv)
      skill_match := baseScoreOf cand (coerceReq jrv).skills
      experience_match := finalScoreOf cand (coerceReq jrv)
      education_match := finalScoreOf cand (coerceReq jrv)
      ai_analysis := mkAnalysis cand (coerceReq jrv) }

/-- Lines 218-307 of `ai_processor.py`: `JobMatcher.calculate_match_score_sync`,
the `try` body wrapped by the catch-all `except` returning the fallback. -/
def calculate_match_score_sync (cand : Candidate) (jrv : JobReqVal) : MatchResult :=
  match scoreBody cand jrv with
  | Except.ok r => r
  | Except.error _ => fallbackResult

/-- Line 166 of `data_processor.py`: the candidate skill set used by the
pre-filter, `{skill.lower().strip() for skill in candidate_data.get('skills', [])}`. -/
def candSkillsNorm (cand : Candidate) : Finset String :=
  (cand.skills.map (fun s => pyTrim (pyLower s))).toFinset

/-- Lines 171-179: the fixed keyword set for tech-job relevance (listed as in
the source; the duplicate `'developer'` is harmless for membership). -/
def techKeywords : List String :=
  ["developer", "engineer", "programmer", "software", "web", "full stack",
   "backend", "frontend", "data scientist", "devops", "qa", "test",
   "analyst", "architect", "specialist", "consultant", "manager",
   "developer", "tech", "it", "information", "system", "application",
   "cloud", "security", "network", "support", "administrator", "lead",
   "head", "chief", "director", "coordinator", "designer", "marketing",
   "digital", "content", "social media", "data"]

/-- Line 193-194: the second, redundant keyword list of the tech check. -/
def techWordsExtra : List String :=
  ["tech", "it", "software", "data", "digital", "marketing", "social"]

/-- Lines 190-195: `is_tech_job`, a substring test of each keyword against the
lower-cased title and role. -/
def isTechJob (j : Job) : Bool :=
  let t := pyLower j.title
  let r := pyLower j.role
  techKeywords.any (fun k => containsSub t k) ||
  techKeywords.any (fun k => containsSub r k) ||
  techWordsExtra.any (fun k => containsSub t k) ||
  techWordsExtra.any (fun k => containsSub r k)

/-- Lines 204-213: the normalized job skill set,
`{skill.lower().strip().strip('"[]') for skill in ...}` for a list value, the
same over `split(',')` for a string value, and the empty set otherwise. -/
def jobSkillsOf (j : Job) : Finset String :=
  match j.requirements.skills with
  | SVal.list l => (l.map (fun s => pyStripChars ['\"', '[', ']'] (pyTrim (pyLower s)))).toFinset
  | SVal.str s => (((pySplitChar ',' s).map
      (fun t => pyStripChars ['\"', '[', ']'] (pyTrim (pyLower t)))).toFinset)
  | SVal.bad => ∅

/-- Lines 218-233: the keep/drop decision for one tech job: `none` means the
job is dropped, `some s` means it is kept with `preliminary_score = s`. -/
def keepDecision (cs : Finset String) (j : Job) : Option ℚ :=
  if jobSkillsOf j = ∅ then some 50
  else if 0 < ((cs ∩ jobSkillsOf j).card : ℚ) / ((jobSkillsOf j).card : ℚ) ∨
      (jobSkillsOf j).card ≤ 5 then
    some (((cs ∩ jobSkillsOf j).card : ℚ) / ((jobSkillsOf j).card : ℚ) * 100)
  else none

/-- The in-place write `job['preliminary_score'] = s`. -/
def setScore (j : Job) (s : ℚ) : Job :=
  { j with preliminary_score := some s }

/-- One iteration of the pre-filter loop on one catalog job: the first
component is the job object after the loop (mutated in place when kept), the
second is its contribution to `filtered_jobs`. -/
def filterStep (cs : Finset String) (j : Job) : Job × Option Job :=
  if isTechJob j = true then
    match keepDecision cs j with
    | some s => (setScore j s, some (setScore j s))
    | none => (j, none)
  else (j, none)

/-- The pre-filter loop over the whole catalog: catalog state after the loop,
and `filtered_jobs` in catalog order. -/
def preFilterPass (jobs : List Job) (cand : Candidate) : List Job × List Job :=
  let cs := candSkillsNorm cand
  (jobs.map (fun j => (filterStep cs j).1), jobs.filterMap (fun j => (filterStep cs j).2))

/-- `filtered_jobs` before sorting (in catalog order). -/
def keptJobs (jobs : List Job) (cand : Candidate) : List Job :=
  (preFilterPass jobs cand).2

/-- The input catalog as left behind by the pre-filter (modelling the in-place
dict mutation of the cached jobs). -/
def catalogAfterFilter (jobs : List Job) (cand : Candidate) : List Job :=
  (preFilterPass jobs cand).1

/-- The sort key read by `filtered_jobs.sort(key=lambda x: x['preliminary_score'])`
(every job in `filtered_jobs` has the key set). -/
def prelimScore (j : Job) : ℚ :=
  j.preliminary_score.getD 0

/-- The descending comparison underlying the stable
`sort(key=..., reverse=True)` of line 236. -/
def scoreGE (a b : Job) : Prop :=
  prelimScore b ≤ prelimScore a

instance : DecidableRel scoreGE :=
  fun a b => inferInstanceAs (Decidable (prelimScore b ≤ prelimScore a))

instance : IsTotal Job scoreGE :=
  ⟨fun a b => le_total (prelimScore b) (prelimScore a)⟩

instance : IsTrans Job scoreGE :=
  ⟨fun _ _ _ h1 h2 => le_trans h2 h1⟩

/-- Lines 235-250 of `data_processor.py`: `_pre_filter_jobs`, returning the
kept jobs stably sorted by descending preliminary score and truncated to 50
(Python's `list.sort` is stable; `List.insertionSort` with a total relation is
the same stable sort). -/
def pre_filter_jobs (jobs : List Job) (cand : Candidate) : List Job :=
  ((keptJobs jobs cand).insertionSort scoreGE).take 50

/-- The job summary embedded in each match object (lines 295-302). -/
structure JobSummary where
  title : String
  company : String
  role : String
  salary_range : String
  work_type : String
  requirements : Requirements
deriving DecidableEq, Repr

/-- One entry of the `matches` list (lines 294-308). -/
structure MatchObj where
  job : JobSummary
  match_score : ℚ
  skill_match : ℚ
  experience_match : ℚ
  education_match : ℚ
  ai_analysis : Analysis
deriving DecidableEq, Repr

/-- The `pagination` dict (lines 317-322). -/
structure Pagination where
  total : Nat
  page : Nat
  per_page : Nat
  total_pages : Nat
deriving DecidableEq, Repr

/-- The dict returned by `match_candidate_with_jobs`. -/
structure PagedMatches where
  «matches» : List MatchObj
  pagination : Pagination
deriving DecidableEq, Repr

/-- Lines 283-309: the match object built for one page job from the scorer's
result (`calculate_match_score_sync` never raises, so the per-job `except ...
continue` never skips a job). -/
def mkMatchObj (cand : Candidate) (j : Job) : MatchObj :=
  let ms := calculate_match_score_sync cand (JobReqVal.dict j.requirements)
  { job :=
      { title := j.title
        company := j.company
        role := j.role
        salary_range := j.salary_range
        work_type := j.work_type
        requirements := j.requirements }
    match_score := ms.total_score
    skill_match := ms.skill_match
    experience_match := ms.experience_match
    education_match := ms.education_match
    ai_analysis := ms.ai_analysis }

/-- Lines 252-323 of `data_processor.py`: `match_candidate_with_jobs` for a
fixed cached catalog `jobs`. The `use_ai` parameter is accepted but never read
by the source body; `start_idx = (page-1)*per_page`, `end_idx = start_idx +
per_page`, and the page slice is `filtered_jobs[start_idx:end_idx]`. -/
def match_candidate_with_jobs (jobs : List Job) (cand : Candidate)
    (page : Nat) (per_page : Nat) (use_ai : Bool) : PagedMatches :=
  let filtered := pre_filter_jobs jobs cand
  let total := filtered.length
  let total_pages := (total + per_page - 1) / per_page
  let page_jobs := (filtered.drop ((page - 1) * per_page)).take per_page
  { «matches» := page_jobs.map (mkMatchObj cand)
    pagination :=
      { total := total
        page := page
        per_page := per_page
        total_pages := total_pages } }

/-- A CSV row as produced by `csv.DictReader`: an association of column names
to cell strings (`row.get(k, d)` looks the key up with default `d`; `not row`
is true only of an empty dict). -/
def Row : Type := List (String × String)

instance : DecidableEq Row := inferInstanceAs (DecidableEq (List (String × String)))

/-- Python `row.get(key, default)`. -/
def rowGetD (r : Row) (key default : String) : String :=
  ((r.find? (fun p => p.1 = key)).map Prod.snd).getD default

/-- Lines 79-86 of `data_processor.py`: parsing of the `skills` cell: split on
commas, strip each token, then strip quotes/brackets/spaces and strip again. -/
def parseSkillsText (t : String) : List String :=
  if t = "" then []
  else (((pySplitChar ',' t).map pyTrim).map
    (fun s => pyTrim (pyStripChars ['\"', ' ', '[', ']'] s)))

/-- Line 130: the education keyword list of `_parse_qualifications`. -/
def eduKeywords : List String :=
  ["bachelor", "master", "phd", "degree", "diploma", "certification"]

/-- Lines 128-140: `_parse_qualifications`, collecting the stripped lines that
mention an education keyword. -/
def parse_qualifications (q : String) : List String :=
  (pySplitChar '\n' q).filterMap (fun line =>
    if eduKeywords.any (fun k => containsSub (pyLower line) k) then some (pyTrim line)
    else none)

/-- Line 156: the adjacent-word scan of `_parse_experience`: the first token
pair `(words[i-1], words[i])` with `words[i].isdigit()` and `words[i-1]` in
`['minimum', 'at least', 'more than']` yields `int(words[i])` (the two-word
entries can never equal a single whitespace-split token). -/
def scanYearPairs : List String → Option Nat
  | a :: b :: rest =>
    if isDigitStr b = true ∧ (a = "minimum" ∨ a = "at least" ∨ a = "more than") then
      some (digitsToNat b)
    else scanYearPairs (b :: rest)
  | _ => none

/-- Lines 142-160: `_parse_experience`, returning the (always truthy, two-key)
experience dict: lines mentioning `experience` or `years` are collected into
`description`, and each such line may overwrite `minimum_years` via the
adjacent-word scan. -/
def parse_experience (q : String) : ExpField :=
  let st := (pySplitChar '\n' q).foldl
    (fun (acc : Nat × List String) line =>
      let ll := pyLower line
      if containsSub ll "experience" || containsSub ll "years" then
        (((scanYearPairs (pySplitWs ll)).getD acc.1), acc.2 ++ [pyTrim line])
      else acc)
    (0, [])
  ExpField.dict st.1 st.2

/-- Lines 52-104: the per-row acceptance and job construction: empty rows and
rows whose stripped `Job Title` is blank are skipped (`none`); otherwise the
job dict is built with best-effort defaults. -/
def parseRow (r : Row) : Option Job :=
  if r = [] then none
  else if pyTrim (rowGetD r "Job Title" "") = "" then none
  else
    some
      { title := pyTrim (rowGetD r "Job Title" "")
        job_title := pyTrim (rowGetD r "Job Title" "")
        role := pyTrim (rowGetD r "Role" "")
        description := pyTrim (rowGetD r "Description" "")
        qualifications := pyTrim (rowGetD r "Qualifications" "")
        company := rowGetD r "Company" "Not specified"
        salary_range := rowGetD r "Salary Range" "Not specified"
        work_type := rowGetD r "Work Type" "Not specified"
        requirements :=
          { skills := SVal.list (parseSkillsText (pyTrim (rowGetD r "skills" "")))
            experience := parse_experience (pyTrim (rowGetD r "Qualifications" ""))
            education := parse_qualifications (pyTrim (rowGetD r "Qualifications" "")) }
        preliminary_score := none }

/-- Lines 47-109: the ingestion loop `for i, row in enumerate(reader)`: the
index `i` counts every row read (accepted or skipped) and the loop breaks as
soon as `i >= 100`. -/
def loadLoop (i : Nat) : List Row → List Job
  | [] => []
  | r :: rest =>
    if 100 ≤ i then []
    else
      match parseRow r with
      | some j => j :: loadLoop (i + 1) rest
      | none => loadLoop (i + 1) rest

/-- Lines 25-126 of `data_processor.py`: `_load_jobs_from_csv` applied to the
parsed rows of the source table. -/
def load_jobs_from_csv (rows : List Row) : List Job :=
  loadLoop 0 rows

/-- The `.ok` payload of `scoreBody` (the result dict of lines 283-289),
factored out for reuse in the theorems. -/
def okResult (cand : Candidate) (jr : Requirements) : MatchResult :=
  { total_score := finalScoreOf cand jr
    skill_match := baseScoreOf cand jr.skills
    experience_match := finalScoreOf cand jr
    education_match := finalScoreOf cand jr
    ai_analysis := mkAnalysis cand jr }

/-- Predicate for claim C1: a score lies in the closed interval [0, 100]. -/
def scoreInRange (q : ℚ) : Prop := 0 ≤ q ∧ q ≤ 100

/-- Follows the words of claim C2, not the source: the claimed adjusted score,
whose adjustment is guarded by `minimum_years > 0` (instead of the source's
truthiness test on the whole experience value). -/
def claimedExpAdjustedScore (cand : Candidate) (jr : Requirements) : ℚ :=
  if 0 < minYearsOf jr.experience ∧ cand.experience ≠ [] then
    if minYearsOf jr.experience ≤ candidateYears cand then
      min 100 (baseScoreOf cand jr.skills + 10)
    else
      max 0 (baseScoreOf cand jr.skills - 10)
  else baseScoreOf cand jr.skills

/-- Removal of the `preliminary_score` key, to compare jobs up to the one field
the pre-filter writes. -/
def stripScore (j : Job) : Job :=
  { j with preliminary_score := none }

/-- A candidate with no skills and no experience. -/
def noSkillsCand : Candidate := { skills := [], experience := [], education := [] }

/-- A domain-relevant job (title contains the keyword `developer`) with an
empty required-skills list. -/
def exTechJob : Job :=
  { title := "developer"
    job_title := "developer"
    role := ""
    description := ""
    qualifications := ""
    company := "Not specified"
    salary_range := "Not specified"
    work_type := "Not specified"
    requirements :=
      { skills := SVal.list [], experience := ExpField.dict 0 [], education := [] }
    preliminary_score := none }

/-- Candidate for the C2 counterexample: no skills, one experience entry whose
period has one hyphen-token. -/
def c2cand : Candidate :=
  { skills := [], experience := [{ period := "2020" }], education := [] }

/-- Requirements for the C2 counterexample: one required skill, experience dict
with `minimum_years = 0`. -/
def c2jr : Requirements :=
  { skills := SVal.list ["python"], experience := ExpField.dict 0 [], education := [] }

/-- Requirements whose skills value makes the scorer's `try` body raise. -/
def badSkillsReq : Requirements :=
  { skills := SVal.bad, experience := ExpField.falsy, education := [] }

/-- Candidate of the end-to-end example of the specification:
skills `{python, sql}`. -/
def exCand : Candidate :=
  { skills := ["python", "sql"], experience := [], education := [] }

/-- Requirements of the end-to-end example: skills `{python, sql, aws}`, no
experience data. -/
def exReq : Requirements :=
  { skills := SVal.list ["python", "sql", "aws"], experience := ExpField.falsy
    education := [] }

/-- A domain-relevant job with six required skills (for claim C4's dropped case). -/
def sixSkillJob : Job :=
  { exTechJob with
    requirements :=
      { skills := SVal.list ["a1", "a2", "a3", "a4", "a5", "a6"]
        experience := ExpField.dict 0 []
        education := [] } }

/-- A 25-job catalog of domain-relevant jobs (for claim C7's pagination example). -/
def c7jobs : List Job := List.replicate 25 exTechJob

/-- A row whose `Job Title` cell is blank. -/
def blankTitleRow : Row := [("Job Title", "")]

/-- A row with a non-empty title. -/
def titledRow : Row := [("Job Title", "T")]

/-- A 101-row source: one blank-title row followed by 100 titled rows (so the
source has exactly 100 rows with non-empty titles). -/
def c6rows : List Row := blankTitleRow :: List.replicate 100 titledRow

theorem scoreBody_cases (cand : Candidate) (jrv : JobReqVal) :
    scoreBody cand jrv = Except.error () ∨
    scoreBody cand jrv = Except.ok (okResult cand (coerceReq jrv)) := by
  unfold scoreBody
  split_ifs <;> simp [okResult]

theorem calc_eq_fallback_or_ok (cand : Candidate) (jrv : JobReqVal) :
    calculate_match_score_sync cand jrv = fallbackResult ∨
    calculate_match_score_sync cand jrv = okResult cand (coerceReq jrv) := by
  unfold calculate_match_score_sync
  rcases scoreBody_cases cand jrv with h | h <;> rw [h]
  · exact Or.inl rfl
  · exact Or.inr rfl

theorem calc_dict_ok (cand : Candidate) (jr : Requirements)
    (hs : jr.skills ≠ SVal.bad)
    (he : ¬ (jr.experience = ExpField.bad ∧ cand.experience ≠ [])) :
    calculate_match_score_sync cand (JobReqVal.dict jr) = okResult cand jr := by
  unfold calculate_match_score_sync scoreBody
  simp only [coerceReq]
  rw [if_neg hs, if_neg he]
  rfl

theorem matching_card_le (cand : Candidate) (sv : SVal) :
    (matchingSetOf cand sv).card ≤ (requiredSetOf sv).card :=
  Finset.card_le_card Finset.inter_subset_left

theorem baseScore_nonneg (cand : Candidate) (sv : SVal) :
    0 ≤ baseScoreOf cand sv := by
  unfold baseScoreOf
  split_ifs <;> positivity

theorem baseScore_le_100 (cand : Candidate) (sv : SVal) :
    baseScoreOf cand sv ≤ 100 := by
  unfold baseScoreOf
  split_ifs with h
  · norm_num
  · have hpos : 0 < ((requiredSetOf sv).card : ℚ) := by
      have : 0 < (requiredSetOf sv).card :=
        Finset.card_pos.mpr (Finset.nonempty_iff_ne_empty.mpr h)
      exact_mod_cast this
    have hle : ((matchingSetOf cand sv).card : ℚ) / ((requiredSetOf sv).card : ℚ) ≤ 1 := by
      rw [div_le_one hpos]
      exact_mod_cast matching_card_le cand sv
    linarith

theorem finalScore_nonneg (cand : Candidate) (jr : Requirements) :
    0 ≤ finalScoreOf cand jr := by
  unfold finalScoreOf
  have h1 := baseScore_nonneg cand jr.skills
  split_ifs
  · exact le_min (by norm_num) (by linarith)
  · exact le_max_left 0 _
  · exact h1

theorem finalScore_le_100 (cand : Candidate) (jr : Requirements) :
    finalScoreOf cand jr ≤ 100 := by
  unfold finalScoreOf
  have h1 := baseScore_le_100 cand jr.skills
  split_ifs
  · exact min_le_left 100 _
  · exact max_le (by norm_num) (by linarith)
  · exact h1

/-- C1: for every candidate record and every job-requirements value (the
error-fallback path included), the four score fields of the result of
`calculate_match_score_sync` all lie in the closed interval [0, 100]. -/
theorem c1_score_fields_in_range (cand : Candidate) (jrv : JobReqVal) :
    scoreInRange (calculate_match_score_sync cand jrv).total_score ∧
    scoreInRange (calculate_match_score_sync cand jrv).skill_match ∧
    scoreInRange (calculate_match_score_sync cand jrv).experience_match ∧
    scoreInRange (calculate_match_score_sync cand jrv).education_match := by
  rcases calc_eq_fallback_or_ok cand jrv with h | h <;> rw [h]
  · refine ⟨?_, ?_, ?_, ?_⟩ <;> exact ⟨by norm_num [fallbackResult], by norm_num [fallbackResult]⟩
  · have hb0 := baseScore_nonneg cand (coerceReq jrv).skills
    have hb1 := baseScore_le_100 cand (coerceReq jrv).skills
    have hf0 := finalScore_nonneg cand (coerceReq jrv)
    have hf1 := finalScore_le_100 cand (coerceReq jrv)
    exact ⟨⟨hf0, hf1⟩, ⟨hb0, hb1⟩, ⟨hf0, hf1⟩, ⟨hf0, hf1⟩⟩

/-- C3: on the non-error path the scorer's result has
`total_score = experience_match = education_match = ` the experience-adjusted
skill score, while `skill_match` holds the pre-adjustment skill score
(`100 * |matching| / |required|` for non-empty required, else 50). -/
theorem c3_score_field_relations (cand : Candidate) (jr : Requirements)
    (hs : jr.skills ≠ SVal.bad)
    (he : ¬ (jr.experience = ExpField.bad ∧ cand.experience ≠ [])) :
    (calculate_match_score_sync cand (JobReqVal.dict jr)).total_score =
      finalScoreOf cand jr ∧
    (calculate_match_score_sync cand (JobReqVal.dict jr)).experience_match =
      finalScoreOf cand jr ∧
    (calculate_match_score_sync cand (JobReqVal.dict jr)).education_match =
      finalScoreOf cand jr ∧
    (calculate_match_score_sync cand (JobReqVal.dict jr)).skill_match =
      baseScoreOf cand jr.skills ∧
    (requiredSetOf jr.skills ≠ ∅ →
      (calculate_match_score_sync cand (JobReqVal.dict jr)).skill_match =
        100 * ((matchingSetOf cand jr.skills).card : ℚ) /
          ((requiredSetOf jr.skills).card : ℚ)) ∧
    (requiredSetOf jr.skills = ∅ →
      (calculate_match_score_sync cand (JobReqVal.dict jr)).skill_match = 50) := by
  rw [calc_dict_ok cand jr hs he]
  refine ⟨rfl, rfl, rfl, rfl, ?_, ?_⟩
  · intro h
    show baseScoreOf cand jr.skills = _
    unfold baseScoreOf
    rw [if_neg h]
    ring
  · intro h
    show baseScoreOf cand jr.skills = 50
    unfold baseScoreOf
    rw [if_pos h]
    norm_num

theorem c3_witness :
    exReq.skills ≠ SVal.bad ∧
    ¬ (exReq.experience = ExpField.bad ∧ exCand.experience ≠ []) ∧
    ((calculate_match_score_sync exCand (JobReqVal.dict exReq)).total_score =
        finalScoreOf exCand exReq ∧
      (calculate_match_score_sync exCand (JobReqVal.dict exReq)).experience_match =
        finalScoreOf exCand exReq ∧
      (calculate_match_score_sync exCand (JobReqVal.dict exReq)).education_match =
        finalScoreOf exCand exReq ∧
      (calculate_match_score_sync exCand (JobReqVal.dict exReq)).skill_match =
        baseScoreOf exCand exReq.skills ∧
      (requiredSetOf exReq.skills ≠ ∅ →
        (calculate_match_score_sync exCand (JobReqVal.dict exReq)).skill_match =
          100 * ((matchingSetOf exCand exReq.skills).card : ℚ) /
            ((requiredSetOf exReq.skills).card : ℚ)) ∧
      (requiredSetOf exReq.skills = ∅ →
        (calculate_match_score_sync exCand (JobReqVal.dict exReq)).skill_match = 50)) :=
  ⟨by decide, by decide,
    c3_score_field_relations exCand exReq (by decide) (by decide)⟩

/-- C9: the scorer never raises: every input yields a result (either the `try`
body's result or, on any internal error, the fixed neutral fallback whose four
scores are 50 with generic analysis text), and a non-mapping
`job_requirements` is coerced to the empty-requirements shape and scored with
neutral 50s. -/
theorem c9_never_raises_fallback (cand : Candidate) (jrv : JobReqVal) :
    (calculate_match_score_sync cand jrv = fallbackResult ∨
      calculate_match_score_sync cand jrv = okResult cand (coerceReq jrv)) ∧
    (∀ e : Unit, scoreBody cand jrv = Except.error e →
      calculate_match_score_sync cand jrv = fallbackResult) ∧
    fallbackResult.total_score = 50 ∧
    fallbackResult.skill_match = 50 ∧
    fallbackResult.experience_match = 50 ∧
    fallbackResult.education_match = 50 ∧
    fallbackResult.ai_analysis.summary = "Basic skill matching analysis" ∧
    (jrv = JobReqVal.notDict →
      (calculate_match_score_sync cand jrv).total_score = 50 ∧
      (calculate_match_score_sync cand jrv).skill_match = 50 ∧
      (calculate_match_score_sync cand jrv).experience_match = 50 ∧
      (calculate_match_score_sync cand jrv).education_match = 50) := by
  refine ⟨calc_eq_fallback_or_ok cand jrv, ?_, rfl, rfl, rfl, rfl, rfl, ?_⟩
  · intro e h
    unfold calculate_match_score_sync
    rw [h]
  · rintro rfl
    have h : calculate_match_score_sync cand JobReqVal.notDict =
        okResult cand emptyCoercedReq := by
      exact calc_dict_ok cand emptyCoercedReq (by decide)
        (fun hc => absurd hc.1 (by decide))
    rw [h]
    have hreq : requiredSetOf emptyCoercedReq.skills = ∅ := by decide
    have hbase : baseScoreOf cand emptyCoercedReq.skills = 50 := by
      unfold baseScoreOf
      rw [if_pos hreq]
      norm_num
    have hfinal : finalScoreOf cand emptyCoercedReq = 50 := by
      unfold finalScoreOf
      rw [if_neg (by simp [emptyCoercedReq, expTruthy])]
      exact hbase
    exact ⟨hfinal, hbase, hfinal, hfinal⟩

theorem c9_witness :
    scoreBody noSkillsCand (JobReqVal.dict badSkillsReq) = Except.error () ∧
    calculate_match_score_sync noSkillsCand (JobReqVal.dict badSkillsReq) =
      fallbackResult :=
  ⟨rfl, (c9_never_raises_fallback noSkillsCand (JobReqVal.dict badSkillsReq)).2.1 () rfl⟩

/-- Counterexample to C2 as stated: with `minimum_years = 0` (and a non-empty,
hence truthy, experience dict) the source still applies the +10 adjustment,
while the claim's rule (adjust only when `minimum_years > 0`) leaves the base
score unchanged. -/
theorem c2_counterexample :
    minYearsOf c2jr.experience = 0 ∧
    c2cand.experience ≠ [] ∧
    (calculate_match_score_sync c2cand (JobReqVal.dict c2jr)).skill_match = 0 ∧
    (calculate_match_score_sync c2cand (JobReqVal.dict c2jr)).total_score = 10 ∧
    claimedExpAdjustedScore c2cand c2jr = 0 ∧
    (calculate_match_score_sync c2cand (JobReqVal.dict c2jr)).total_score ≠
      claimedExpAdjustedScore c2cand c2jr := by
  have hcalc := calc_dict_ok c2cand c2jr (by decide) (by decide)
  have hbase : baseScoreOf c2cand c2jr.skills = 0 := by
    unfold baseScoreOf
    rw [if_neg (by decide : ¬ requiredSetOf c2jr.skills = ∅)]
    rw [show (matchingSetOf c2cand c2jr.skills).card = 0 from rfl]
    rw [show (requiredSetOf c2jr.skills).card = 1 from rfl]
    norm_num
  have hfinal : finalScoreOf c2cand c2jr = 10 := by
    unfold finalScoreOf
    rw [if_pos ⟨by decide, by decide⟩]
    rw [if_pos (by decide : minYearsOf c2jr.experience ≤ candidateYears c2cand)]
    rw [hbase]
    norm_num
  have hclaimed : claimedExpAdjustedScore c2cand c2jr = 0 := by
    unfold claimedExpAdjustedScore
    rw [if_neg (fun hc => absurd hc.1 (by decide))]
    exact hbase
  refine ⟨by decide, by decide, ?_, ?_, hclaimed, ?_⟩
  · rw [hcalc]
    exact hbase
  · rw [hcalc]
    exact hfinal
  · rw [hcalc, hclaimed]
    show finalScoreOf c2cand c2jr ≠ 0
    rw [hfinal]
    norm_num

/-- C2 as amended: the scorer applies the experience adjustment exactly when
the job's experience value is truthy (a non-empty dict, whatever its
`minimum_years`, 0 included) and the candidate has at least one experience
entry; it then adds 10 (capped at 100) when the hyphen-token estimate of
candidate years reaches `minimum_years` and subtracts 10 (floored at 0)
otherwise; when the experience value is falsy or the candidate has no
experience entries, the total equals the unadjusted skill score. -/
theorem c2_amended_adjustment_guard (cand : Candidate) (jr : Requirements)
    (hs : jr.skills ≠ SVal.bad) (he : jr.experience ≠ ExpField.bad) :
    (expTruthy jr.experience = true ∧ cand.experience ≠ [] →
      (minYearsOf jr.experience ≤ candidateYears cand →
        (calculate_match_score_sync cand (JobReqVal.dict jr)).total_score =
          min 100 (baseScoreOf cand jr.skills + 10)) ∧
      (¬ minYearsOf jr.experience ≤ candidateYears cand →
        (calculate_match_score_sync cand (JobReqVal.dict jr)).total_score =
          max 0 (baseScoreOf cand jr.skills - 10))) ∧
    (¬ (expTruthy jr.experience = true ∧ cand.experience ≠ []) →
      (calculate_match_score_sync cand (JobReqVal.dict jr)).total_score =
        baseScoreOf cand jr.skills ∧
      (calculate_match_score_sync cand (JobReqVal.dict jr)).total_score =
        (calculate_match_score_sync cand (JobReqVal.dict jr)).skill_match) := by
  have hcalc := calc_dict_ok cand jr hs (fun hc => he hc.1)
  rw [hcalc]
  constructor
  · intro happ
    constructor
    · intro hy
      show finalScoreOf cand jr = _
      unfold finalScoreOf
      rw [if_pos happ, if_pos hy]
    · intro hy
      show finalScoreOf cand jr = _
      unfold finalScoreOf
      rw [if_pos happ, if_neg hy]
  · intro happ
    have : finalScoreOf cand jr = baseScoreOf cand jr.skills := by
      unfold finalScoreOf
      rw [if_neg happ]
    exact ⟨this, this⟩

theorem c2_amended_witness :
    c2jr.skills ≠ SVal.bad ∧
    c2jr.experience ≠ ExpField.bad ∧
    ((expTruthy c2jr.experience = true ∧ c2cand.experience ≠ [] →
      (minYearsOf c2jr.experience ≤ candidateYears c2cand →
        (calculate_match_score_sync c2cand (JobReqVal.dict c2jr)).total_score =
          min 100 (baseScoreOf c2cand c2jr.skills + 10)) ∧
      (¬ minYearsOf c2jr.experience ≤ candidateYears c2cand →
        (calculate_match_score_sync c2cand (JobReqVal.dict c2jr)).total_score =
          max 0 (baseScoreOf c2cand c2jr.skills - 10))) ∧
    (¬ (expTruthy c2jr.experience = true ∧ c2cand.experience ≠ []) →
      (calculate_match_score_sync c2cand (JobReqVal.dict c2jr)).total_score =
        baseScoreOf c2cand c2jr.skills ∧
      (calculate_match_score_sync c2cand (JobReqVal.dict c2jr)).total_score =
        (calculate_match_score_sync c2cand (JobReqVal.dict c2jr)).skill_match)) :=
  ⟨by decide, by decide,
    c2_amended_adjustment_guard c2cand c2jr (by decide) (by decide)⟩

theorem pre_filter_singleton (cand : Candidate) (j : Job) (h : isTechJob j = true) :
    pre_filter_jobs [j] cand =
      ((keepDecision (candSkillsNorm cand) j).map (setScore j)).toList := by
  unfold pre_filter_jobs keptJobs preFilterPass filterStep
  cases hk : keepDecision (candSkillsNorm cand) j <;>
    simp [hk, h, List.insertionSort, List.orderedInsert]

/-- C4: for a domain-relevant job, the pre-filter keeps it iff its normalized
required-skills set is empty (then with preliminary score 50), or the skill
overlap ratio is strictly positive, or there are at most 5 required skills; in
particular a domain-relevant job with more than 5 required skills and no
overlap is dropped, and one with at most 5 required skills and no overlap is
kept with preliminary score `skill_score * 100 = 0`. -/
theorem c4_keep_rule (cand : Candidate) (j : Job) (h : isTechJob j = true) :
    (jobSkillsOf j = ∅ → pre_filter_jobs [j] cand = [setScore j 50]) ∧
    (jobSkillsOf j ≠ ∅ →
      ((pre_filter_jobs [j] cand ≠ []) ↔
        (0 < ((candSkillsNorm cand ∩ jobSkillsOf j).card : ℚ) /
            ((jobSkillsOf j).card : ℚ) ∨
          (jobSkillsOf j).card ≤ 5)) ∧
      (∀ s : ℚ, keepDecision (candSkillsNorm cand) j = some s →
        pre_filter_jobs [j] cand = [setScore j s] ∧
        s = ((candSkillsNorm cand ∩ jobSkillsOf j).card : ℚ) /
            ((jobSkillsOf j).card : ℚ) * 100)) ∧
    (5 < (jobSkillsOf j).card → candSkillsNorm cand ∩ jobSkillsOf j = ∅ →
      pre_filter_jobs [j] cand = []) ∧
    ((jobSkillsOf j).card ≤ 5 → jobSkillsOf j ≠ ∅ →
      candSkillsNorm cand ∩ jobSkillsOf j = ∅ →
      pre_filter_jobs [j] cand = [setScore j 0]) := by
  have hsing := pre_filter_singleton cand j h
  refine ⟨?_, ?_, ?_, ?_⟩
  · intro hempty
    rw [hsing]
    unfold keepDecision
    rw [if_pos hempty]
    rfl
  · intro hne
    constructor
    · rw [hsing]
      unfold keepDecision
      rw [if_neg hne]
      split_ifs with hcond
      · simpa using hcond
      · simpa using hcond
    · intro s hk
      refine ⟨by rw [hsing, hk]; rfl, ?_⟩
      unfold keepDecision at hk
      rw [if_neg hne] at hk
      split_ifs at hk
      exact (Option.some.inj hk).symm
  · intro hlt hinter
    rw [hsing]
    unfold keepDecision
    rw [if_neg (by
      intro hempty
      rw [hempty] at hlt
      simp at hlt)]
    rw [if_neg]
    · rfl
    · rw [hinter]
      push_neg
      refine ⟨by simp, by omega⟩
  · intro hle hne hinter
    rw [hsing]
    unfold keepDecision
    rw [if_neg hne, if_pos (Or.inr hle)]
    rw [hinter]
    simp

theorem c4_witness :
    isTechJob sixSkillJob = true ∧
    ((jobSkillsOf sixSkillJob = ∅ →
        pre_filter_jobs [sixSkillJob] noSkillsCand = [setScore sixSkillJob 50]) ∧
      (jobSkillsOf sixSkillJob ≠ ∅ →
        ((pre_filter_jobs [sixSkillJob] noSkillsCand ≠ []) ↔
          (0 < ((candSkillsNorm noSkillsCand ∩ jobSkillsOf sixSkillJob).card : ℚ) /
              ((jobSkillsOf sixSkillJob).card : ℚ) ∨
            (jobSkillsOf sixSkillJob).card ≤ 5)) ∧
        (∀ s : ℚ, keepDecision (candSkillsNorm noSkillsCand) sixSkillJob = some s →
          pre_filter_jobs [sixSkillJob] noSkillsCand = [setScore sixSkillJob s] ∧
          s = ((candSkillsNorm noSkillsCand ∩ jobSkillsOf sixSkillJob).card : ℚ) /
              ((jobSkillsOf sixSkillJob).card : ℚ) * 100)) ∧
      (5 < (jobSkillsOf sixSkillJob).card →
        candSkillsNorm noSkillsCand ∩ jobSkillsOf sixSkillJob = ∅ →
        pre_filter_jobs [sixSkillJob] noSkillsCand = []) ∧
      ((jobSkillsOf sixSkillJob).card ≤ 5 → jobSkillsOf sixSkillJob ≠ ∅ →
        candSkillsNorm noSkillsCand ∩ jobSkillsOf sixSkillJob = ∅ →
        pre_filter_jobs [sixSkillJob] noSkillsCand = [setScore sixSkillJob 0])) :=
  ⟨by decide, c4_keep_rule noSkillsCand sixSkillJob (by decide)⟩

theorem filter_orderedInsert_eq (x : Job) (l : List Job) (q : ℚ)
    (hx : prelimScore x = q) :
    (l.orderedInsert scoreGE x).filter (fun j => decide (prelimScore j = q)) =
      x :: l.filter (fun j => decide (prelimScore j = q)) := by
  induction l with
  | nil => simp [List.orderedInsert, hx]
  | cons b t ih =>
    by_cases hbx : scoreGE x b
    · rw [List.orderedInsert, if_pos hbx]
      simp [List.filter_cons, hx]
    · rw [List.orderedInsert, if_neg hbx]
      have hb : ¬ prelimScore b = q := by
        intro hq
        exact hbx (by unfold scoreGE; rw [hq, hx])
      simp [List.filter_cons, hb, ih]

theorem filter_orderedInsert_ne (x : Job) (l : List Job) (q : ℚ)
    (hx : ¬ prelimScore x = q) :
    (l.orderedInsert scoreGE x).filter (fun j => decide (prelimScore j = q)) =
      l.filter (fun j => decide (prelimScore j = q)) := by
  induction l with
  | nil => simp [List.orderedInsert, hx]
  | cons b t ih =>
    by_cases hbx : scoreGE x b
    · rw [List.orderedInsert, if_pos hbx]
      simp [List.filter_cons, hx]
    · rw [List.orderedInsert, if_neg hbx]
      simp [List.filter_cons, ih]

theorem filter_insertionSort_eq (l : List Job) (q : ℚ) :
    (l.insertionSort scoreGE).filter (fun j => decide (prelimScore j = q)) =
      l.filter (fun j => decide (prelimScore j = q)) := by
  induction l with
  | nil => rfl
  | cons x t ih =>
    rw [List.insertionSort]
    by_cases hx : prelimScore x = q
    · rw [filter_orderedInsert_eq x _ q hx, ih]
      simp [List.filter_cons, hx]
    · rw [filter_orderedInsert_ne x _ q hx, ih]
      simp [List.filter_cons, hx]

/-- C5: the pre-filter's output has at most 50 entries and is sorted by
non-increasing preliminary score; the sort is stable: for each score value,
the output lists the jobs of that score as a subsequence of the kept jobs in
catalog order (truncation happens after the sort), and before truncation the
per-score subsequences are exactly those of the catalog-ordered kept list. -/
theorem c5_sorted_bounded_stable (jobs : List Job) (cand : Candidate) :
    (pre_filter_jobs jobs cand).length ≤ 50 ∧
    List.Sorted scoreGE (pre_filter_jobs jobs cand) ∧
    (∀ q : ℚ,
      List.Sublist
        ((pre_filter_jobs jobs cand).filter (fun j => decide (prelimScore j = q)))
        ((keptJobs jobs cand).filter (fun j => decide (prelimScore j = q)))) ∧
    (∀ q : ℚ,
      ((keptJobs jobs cand).insertionSort scoreGE).filter
          (fun j => decide (prelimScore j = q)) =
        (keptJobs jobs cand).filter (fun j => decide (prelimScore j = q))) := by
  refine ⟨List.length_take_le _ _, ?_, ?_, fun q => filter_insertionSort_eq _ q⟩
  · exact List.Pairwise.sublist (List.take_sublist _ _)
      (List.sorted_insertionSort scoreGE _)
  · intro q
    have h1 : List.Sublist
        ((pre_filter_jobs jobs cand).filter (fun j => decide (prelimScore j = q)))
        (((keptJobs jobs cand).insertionSort scoreGE).filter
          (fun j => decide (prelimScore j = q))) :=
      List.Sublist.filter _ (List.take_sublist _ _)
    rw [filter_insertionSort_eq] at h1
    exact h1

theorem loadLoop_eq (rows : List Row) : ∀ i : Nat,
    loadLoop i rows = ((rows.take (100 - i)).filterMap parseRow) := by
  induction rows with
  | nil => intro i; simp [loadLoop]
  | cons r rest ih =>
    intro i
    by_cases h : 100 ≤ i
    · rw [loadLoop, if_pos h, Nat.sub_eq_zero_of_le h]
      simp
    · rw [loadLoop, if_neg h]
      have h2 : 100 - i = (100 - (i + 1)) + 1 := by omega
      rw [h2, List.take_succ_cons, List.filterMap_cons]
      cases hp : parseRow r <;> simp [hp, ih (i + 1)]

theorem parseRow_title_ne (r : Row) (j : Job) (h : parseRow r = some j) :
    j.title ≠ "" := by
  unfold parseRow at h
  split_ifs at h with h1 h2
  rw [← Option.some.inj h]
  exact h2

/-- C6 as amended: the loaded catalog never contains a record with an empty
title, but the ingestion cap of 100 counts rows READ (accepted or skipped),
not accepted rows: the catalog is exactly the accepted rows among the first
100 source rows. -/
theorem c6_amended_load_cap (rows : List Row) :
    (∀ j ∈ load_jobs_from_csv rows, j.title ≠ "") ∧
    load_jobs_from_csv rows = (rows.take 100).filterMap parseRow ∧
    (load_jobs_from_csv rows).length ≤ 100 := by
  have heq : load_jobs_from_csv rows = (rows.take 100).filterMap parseRow := by
    unfold load_jobs_from_csv
    rw [loadLoop_eq rows 0]
  refine ⟨?_, heq, ?_⟩
  · intro j hj
    rw [heq] at hj
    obtain ⟨r, _, hr⟩ := List.mem_filterMap.mp hj
    exact parseRow_title_ne r j hr
  · rw [heq]
    calc ((rows.take 100).filterMap parseRow).length
        ≤ (rows.take 100).length := List.length_filterMap_le _ _
      _ ≤ 100 := List.length_take_le _ _

theorem c6_amended_witness :
    load_jobs_from_csv c6rows = (c6rows.take 100).filterMap parseRow :=
  (c6_amended_load_cap c6rows).2.1

theorem length_filterMap_replicate (n : Nat) (f : Row → Option Job) (a : Row)
    (h : (f a).isSome = true) :
    ((List.replicate n a).filterMap f).length = n := by
  induction n with
  | zero => rfl
  | succ k ih =>
    rw [List.replicate_succ, List.filterMap_cons]
    cases hfa : f a
    · rw [hfa] at h
      simp at h
    · simp [ih]

theorem length_filter_replicate (n : Nat) (p : Row → Bool) (a : Row)
    (h : p a = true) :
    ((List.replicate n a).filter p).length = n := by
  induction n with
  | zero => rfl
  | succ k ih =>
    rw [List.replicate_succ, List.filter_cons, if_pos h]
    simp [ih]

/-- Counterexample to C6 as stated: a source of 101 rows whose first row has a
blank title followed by 100 titled rows has 100 rows with non-empty titles, yet
the loader returns only 99 records - it stops after reading (not accepting)
100 rows, so it never reaches the 100th titled row. -/
theorem c6_counterexample :
    (c6rows.filter (fun r => pyTrim (rowGetD r "Job Title" "") != "")).length = 100 ∧
    (load_jobs_from_csv c6rows).length = 99 := by
  constructor
  · show ((blankTitleRow :: List.replicate 100 titledRow).filter
      (fun r => pyTrim (rowGetD r "Job Title" "") != "")).length = 100
    rw [List.filter_cons]
    rw [if_neg (by decide)]
    exact length_filter_replicate 100 _ _ (by decide)
  · unfold load_jobs_from_csv
    rw [loadLoop_eq c6rows 0]
    show ((((blankTitleRow :: List.replicate 100 titledRow).take 100).filterMap
      parseRow).length) = 99
    rw [List.take_succ_cons, List.take_replicate, List.filterMap_cons]
    rw [show parseRow blankTitleRow = none from rfl]
    rw [show min 99 100 = 99 by norm_num]
    exact length_filterMap_replicate 99 _ _ (by rfl)

theorem nat_ceil_div (t pp : Nat) (h : 1 ≤ pp) :
    (((t + pp - 1) / pp : Nat) : ℤ) = ⌈(t : ℚ) / (pp : ℚ)⌉ := by
  have hpp : 0 < pp := h
  have hppQ : (0 : ℚ) < (pp : ℚ) := by exact_mod_cast hpp
  set q := (t + pp - 1) / pp with hq
  have hA : q * pp ≤ t + pp - 1 := Nat.div_mul_le_self _ _
  have hmod := Nat.div_add_mod (t + pp - 1) pp
  have hm : (t + pp - 1) % pp < pp := Nat.mod_lt _ hpp
  have hmod' : q * pp + (t + pp - 1) % pp = t + pp - 1 := by
    rw [mul_comm]
    exact hmod
  have hB : t ≤ q * pp := by omega
  have hD : q * pp < t + pp := by omega
  symm
  rw [Int.ceil_eq_iff]
  constructor
  · push_cast
    rw [lt_div_iff₀ hppQ]
    have hD' : (q : ℚ) * pp < t + pp := by exact_mod_cast hD
    nlinarith
  · push_cast
    rw [div_le_iff₀ hppQ]
    exact_mod_cast hB

/-- C7: the pagination of `match_candidate_with_jobs`: `total` counts the
post-filter jobs, `total_pages` is the ceiling of `total / per_page`, the
match list is built exactly from the slice
`[(page-1)*per_page, page*per_page)` of the filtered sequence in filter
order, and a page beyond range yields an empty match list with `total`
unchanged. -/
theorem c7_pagination (jobs : List Job) (cand : Candidate) (page per_page : Nat)
    (u : Bool) (hp : 1 ≤ page) (hpp : 1 ≤ per_page) :
    (match_candidate_with_jobs jobs cand page per_page u).pagination.total =
      (pre_filter_jobs jobs cand).length ∧
    (((match_candidate_with_jobs jobs cand page per_page u).pagination.total_pages : ℤ) =
      ⌈((pre_filter_jobs jobs cand).length : ℚ) / (per_page : ℚ)⌉) ∧
    (match_candidate_with_jobs jobs cand page per_page u).«matches» =
      (((pre_filter_jobs jobs cand).drop ((page - 1) * per_page)).take per_page).map
        (mkMatchObj cand) ∧
    ((pre_filter_jobs jobs cand).length ≤ (page - 1) * per_page →
      (match_candidate_with_jobs jobs cand page per_page u).«matches» = [] ∧
      (match_candidate_with_jobs jobs cand page per_page u).pagination.total =
        (pre_filter_jobs jobs cand).length) := by
  refine ⟨rfl, nat_ceil_div _ _ hpp, rfl, ?_⟩
  intro hout
  refine ⟨?_, rfl⟩
  show ((((pre_filter_jobs jobs cand).drop ((page - 1) * per_page)).take per_page).map
    (mkMatchObj cand)) = []
  rw [List.drop_eq_nil_of_le hout, List.take_nil, List.map_nil]

theorem c7_witness :
    1 ≤ 3 ∧ 1 ≤ 10 ∧
    (pre_filter_jobs c7jobs noSkillsCand).length = 25 ∧
    (match_candidate_with_jobs c7jobs noSkillsCand 3 10 true).«matches».length = 5 ∧
    (match_candidate_with_jobs c7jobs noSkillsCand 3 10 true).pagination.total_pages = 3 ∧
    ((match_candidate_with_jobs c7jobs noSkillsCand 3 10 true).pagination.total =
        (pre_filter_jobs c7jobs noSkillsCand).length ∧
      (((match_candidate_with_jobs c7jobs noSkillsCand 3 10 true).pagination.total_pages : ℤ) =
        ⌈((pre_filter_jobs c7jobs noSkillsCand).length : ℚ) / ((10 : Nat) : ℚ)⌉) ∧
      (match_candidate_with_jobs c7jobs noSkillsCand 3 10 true).«matches» =
        (((pre_filter_jobs c7jobs noSkillsCand).drop ((3 - 1) * 10)).take 10).map
          (mkMatchObj noSkillsCand) ∧
      ((pre_filter_jobs c7jobs noSkillsCand).length ≤ (3 - 1) * 10 →
        (match_candidate_with_jobs c7jobs noSkillsCand 3 10 true).«matches» = [] ∧
        (match_candidate_with_jobs c7jobs noSkillsCand 3 10 true).pagination.total =
          (pre_filter_jobs c7jobs noSkillsCand).length)) :=
  ⟨by norm_num, by norm_num, by rfl, by rfl, by rfl,
    c7_pagination c7jobs noSkillsCand 3 10 true (by norm_num) (by norm_num)⟩

theorem stripScore_filterStep (cs : Finset String) (j : Job) :
    stripScore (filterStep cs j).1 = stripScore j := by
  unfold filterStep
  split_ifs
  · cases keepDecision cs j <;> rfl
  · rfl

/-- C8 as amended: the pre-filter does mutate the cached catalog, but only by
writing the `preliminary_score` key on kept jobs: every other field of every
catalog record, and the catalog's length and order, are unchanged, and every
kept job carries a written score. -/
theorem c8_amended_mutation_bound (jobs : List Job) (cand : Candidate) :
    (catalogAfterFilter jobs cand).map stripScore = jobs.map stripScore ∧
    (catalogAfterFilter jobs cand).length = jobs.length ∧
    (∀ j ∈ keptJobs jobs cand, j.preliminary_score.isSome = true) := by
  refine ⟨?_, ?_, ?_⟩
  · show (jobs.map (fun j => (filterStep (candSkillsNorm cand) j).1)).map stripScore =
      jobs.map stripScore
    rw [List.map_map]
    exact List.map_congr_left (fun j _ => stripScore_filterStep _ j)
  · show (jobs.map (fun j => (filterStep (candSkillsNorm cand) j).1)).length = jobs.length
    exact List.length_map _ _
  · intro j hj
    obtain ⟨j', _, hj'⟩ := List.mem_filterMap.mp hj
    unfold filterStep at hj'
    split_ifs at hj'
    revert hj'
    cases keepDecision (candSkillsNorm cand) j' with
    | none => intro hj'; cases hj'
    | some s =>
      intro hj'
      rw [← Option.some.inj hj']
      rfl

theorem c8_amended_witness :
    (catalogAfterFilter [exTechJob] noSkillsCand).map stripScore =
      [exTechJob].map stripScore :=
  (c8_amended_mutation_bound [exTechJob] noSkillsCand).1

/-- Counterexample to C8 as stated: running the filter on a catalog containing
one kept job changes that job record in place - the `preliminary_score` field
is added - so the filter is not side-effect-free on the cached catalog. -/
theorem c8_counterexample :
    catalogAfterFilter [exTechJob] noSkillsCand = [setScore exTechJob 50] ∧
    exTechJob.preliminary_score = none ∧
    setScore exTechJob 50 ≠ exTechJob ∧
    catalogAfterFilter [exTechJob] noSkillsCand ≠ [exTechJob] := by
  refine ⟨by decide, rfl, by decide, by decide⟩

/-- C10: the result of `match_candidate_with_jobs` is independent of the
`use_ai` flag (the source never reads it), and the match list is built solely
from the deterministic scorer `calculate_match_score_sync` (via
`mkMatchObj`), which makes no narrative-analysis call. -/
theorem c10_use_ai_independent (jobs : List Job) (cand : Candidate)
    (page per_page : Nat) :
    match_candidate_with_jobs jobs cand page per_page true =
      match_candidate_with_jobs jobs cand page per_page false ∧
    (match_candidate_with_jobs jobs cand page per_page false).«matches» =
      (((pre_filter_jobs jobs cand).drop ((page - 1) * per_page)).take per_page).map
        (mkMatchObj cand) :=
  ⟨rfl, rfl⟩
